import Mathlib

/-!
Shallow embedding of the tuskar-ui management API layer
(`openstack_dashboard/api/management.py`).

The Django ORM state is modelled as an explicit `DB` record holding the rows
of each table.  Each Python wrapper class (`Capacity`, `Host`, `Rack`,
`ResourceClass`, `Flavor`, `ResourceClassFlavor`) becomes a structure holding
the wrapped row plus explicit memoisation fields for its lazily cached
relationship properties.  Class methods become functions taking the `DB`
(and returning an updated `DB` when the Python code saves or deletes rows);
ORM lookups that can raise `DoesNotExist` / `MultipleObjectsReturned`
return `Option`.
-/

/-- Owner of a `Capacity` row: the generic foreign key `content_object`
may point to a Host, a Rack or a Flavor. -/
inductive Owner where
  | host (id : Nat)
  | rack (id : Nat)
  | flavor (id : Nat)
deriving DecidableEq, Repr

/-- A row of the Capacity table: `(name, value, unit)` attached to an owner. -/
structure CapacityRow where
  id : Nat
  content_object : Owner
  name : String
  value : Int
  unit : String
deriving DecidableEq, Repr

/-- A row of the Host table. -/
structure HostRow where
  id : Nat
  name : String
  mac_address : String
  ip_address : String
  status : String
  usage : String
  rack_id : Option Nat
deriving DecidableEq, Repr

/-- A row of the Rack table. -/
structure RackRow where
  id : Nat
  name : String
  resource_class_id : Option Nat
  location : String
  subnet : String
deriving DecidableEq, Repr

/-- A row of the ResourceClass table. -/
structure ResourceClassRow where
  id : Nat
  name : String
  service_type : String
deriving DecidableEq, Repr

/-- A row of the Flavor table. -/
structure FlavorRow where
  id : Nat
  name : String
deriving DecidableEq, Repr

/-- A row of the ResourceClassFlavor join table.  `max_vms` is `Option Int`
because `ResourceClass.set_flavors` stores `max_vms.get(flavor.id)`, which is
`None` in Python when the dictionary has no entry for the flavor. -/
structure ResourceClassFlavorRow where
  id : Nat
  resource_class_id : Nat
  flavor_id : Nat
  max_vms : Option Int
deriving DecidableEq, Repr

/-- The database: one list of rows per table, plus the next fresh primary
key handed out on `save()` of an unsaved object. -/
structure DB where
  capacities : List CapacityRow
  hosts : List HostRow
  racks : List RackRow
  resource_classes : List ResourceClassRow
  flavors : List FlavorRow
  resource_class_flavors : List ResourceClassFlavorRow
  nextId : Nat
deriving DecidableEq, Repr

/-- Django `Model.objects.get(...)`: succeeds exactly when precisely one row
matches (otherwise `DoesNotExist` / `MultipleObjectsReturned` is raised). -/
def getUnique {α : Type} (p : α → Bool) (l : List α) : Option α :=
  match l.filter p with
  | [a] => some a
  | _ => none

/-! ### Wrapper structures

Each wrapper holds its `_apiresource` row; memoised relationship properties
(`if "_xs" not in self.__dict__: self._xs = ...`) are explicit `Option`
fields that start out `none` on a freshly constructed wrapper. -/

/-- Wrapper for a Capacity row. -/
structure CapacityW where
  row : CapacityRow
deriving DecidableEq, Repr

/-- Wrapper for a Host row, with the memo slot for its `capacities`
property. -/
structure HostW where
  row : HostRow
  memo_capacities : Option (List CapacityW) := none
deriving DecidableEq, Repr

/-- Wrapper for a Rack row, with memo slots for `capacities` and `hosts`. -/
structure RackW where
  row : RackRow
  memo_capacities : Option (List CapacityW) := none
  memo_hosts : Option (List HostW) := none
deriving DecidableEq, Repr

/-- Wrapper for a ResourceClass row, with the memo slot for `racks`. -/
structure ResourceClassW where
  row : ResourceClassRow
  memo_racks : Option (List RackW) := none
deriving DecidableEq, Repr

/-- Wrapper for a Flavor row. -/
structure FlavorW where
  row : FlavorRow
deriving DecidableEq, Repr

/-- Wrapper for a ResourceClassFlavor row. -/
structure ResourceClassFlavorW where
  row : ResourceClassFlavorRow
deriving DecidableEq, Repr

/-! ### `StringIdAPIResourceWrapper.id`: `str(self._apiresource.id)` -/

/-- `Capacity.id` property. -/
def CapacityW.id (w : CapacityW) : String := toString w.row.id

/-- `Host.id` property. -/
def HostW.id (w : HostW) : String := toString w.row.id

/-- `Rack.id` property. -/
def RackW.id (w : RackW) : String := toString w.row.id

/-- `ResourceClass.id` property. -/
def ResourceClassW.id (w : ResourceClassW) : String := toString w.row.id

/-- `Flavor.id` property. -/
def FlavorW.id (w : FlavorW) : String := toString w.row.id

/-- `ResourceClassFlavor.id` property. -/
def ResourceClassFlavorW.id (w : ResourceClassFlavorW) : String :=
  toString w.row.id

/-! ### Capacity -/

/-- `Capacity.create`: saves a new row and returns `Capacity(c)`. -/
def Capacity.create (db : DB) (content_object : Owner) (name : String)
    (value : Int) (unit : String) : DB × CapacityW :=
  let c : CapacityRow := ⟨db.nextId, content_object, name, value, unit⟩
  ({ db with capacities := db.capacities ++ [c], nextId := db.nextId + 1 },
   ⟨c⟩)

/-! ### Host -/

/-- `Host.get`: `dummymodels.Host.objects.get(id=host_id)`. -/
def Host.get (db : DB) (host_id : Nat) : Option HostW :=
  (getUnique (fun h => h.id = host_id) db.hosts).map (fun r => ⟨r, none⟩)

/-- The capacities related to a host row
(`self._apiresource.capacities.all()`). -/
def Host.capacitiesOf (db : DB) (h : HostRow) : List CapacityW :=
  (db.capacities.filter (fun c => c.content_object = Owner.host h.id)).map
    (fun c => ⟨c⟩)

/-- `Host.capacities` property: computed on first access, then memoised on
the instance.  Returns the value together with the (possibly updated)
wrapper instance. -/
def Host.capacities (w : HostW) (db : DB) : List CapacityW × HostW :=
  match w.memo_capacities with
  | some cs => (cs, w)
  | none =>
    let cs := Host.capacitiesOf db w.row
    (cs, { w with memo_capacities := some cs })

/-! ### Rack -/

/-- `Rack.create`: saves a new row; the Python method has no `return`
statement, so it returns `None` (modelled as the `none` second component). -/
def Rack.create (db : DB) (name : String) (resource_class_id : Option Nat)
    (location : String) (subnet : String) : DB × Option RackW :=
  let r : RackRow := ⟨db.nextId, name, resource_class_id, location, subnet⟩
  ({ db with racks := db.racks ++ [r], nextId := db.nextId + 1 }, none)

/-- `Rack.list`: all racks, or, with `only_free_racks`, only those whose
`resource_class` is `None`. -/
def Rack.list (db : DB) (only_free_racks : Bool) : List RackW :=
  if only_free_racks then
    (db.racks.filter (fun r => r.resource_class_id = none)).map
      (fun r => ⟨r, none, none⟩)
  else
    db.racks.map (fun r => ⟨r, none, none⟩)

/-- `Rack.get`: `dummymodels.Rack.objects.get(id=rack_id)`. -/
def Rack.get (db : DB) (rack_id : Nat) : Option RackW :=
  (getUnique (fun r => r.id = rack_id) db.racks).map (fun r => ⟨r, none, none⟩)

/-- Django `save()` on an already-persisted rack row: replaces the stored
row with the same primary key. -/
def Rack.save (db : DB) (r : RackRow) : DB :=
  { db with racks := db.racks.map (fun x => if x.id = r.id then r else x) }

/-- The hosts related to a rack row (`self._apiresource.host_set.all()`). -/
def Rack.hostsOf (db : DB) (r : RackRow) : List HostW :=
  (db.hosts.filter (fun h => h.rack_id = some r.id)).map (fun h => ⟨h, none⟩)

/-- `Rack.hosts` property: computed on first access, then memoised. -/
def Rack.hosts (w : RackW) (db : DB) : List HostW × RackW :=
  match w.memo_hosts with
  | some hs => (hs, w)
  | none =>
    let hs := Rack.hostsOf db w.row
    (hs, { w with memo_hosts := some hs })

/-! ### ResourceClass -/

/-- `ResourceClass.get`. -/
def ResourceClass.get (db : DB) (resource_class_id : Nat) :
    Option ResourceClassW :=
  (getUnique (fun rc => rc.id = resource_class_id) db.resource_classes).map
    (fun r => ⟨r, none⟩)

/-- `ResourceClass.create`: saves a new row and returns `ResourceClass(rc)`. -/
def ResourceClass.create (db : DB) (name : String) (service_type : String) :
    DB × ResourceClassW :=
  let rc : ResourceClassRow := ⟨db.nextId, name, service_type⟩
  ({ db with resource_classes := db.resource_classes ++ [rc],
             nextId := db.nextId + 1 },
   ⟨rc, none⟩)

/-- `ResourceClass.list`. -/
def ResourceClass.list (db : DB) : List ResourceClassW :=
  db.resource_classes.map (fun rc => ⟨rc, none⟩)

/-- `ResourceClass.delete`: as written in the source it runs
`dummymodels.Flavor.objects.get(id=flavor_id).delete()` — it looks up and
deletes a row of the *Flavor* table, not of the ResourceClass table. -/
def ResourceClass.delete (db : DB) (flavor_id : Nat) : Option DB :=
  (getUnique (fun f => f.id = flavor_id) db.flavors).map (fun _ =>
    { db with flavors := db.flavors.filter (fun f => ¬ f.id = flavor_id) })

/-- The racks related to a resource-class row
(`self._apiresource.rack_set.all()`). -/
def ResourceClass.racksOf (db : DB) (rc : ResourceClassRow) : List RackW :=
  (db.racks.filter (fun r => r.resource_class_id = some rc.id)).map
    (fun r => ⟨r, none, none⟩)

/-- `ResourceClass.racks` property: computed on first access, then
memoised. -/
def ResourceClass.racks (w : ResourceClassW) (db : DB) :
    List RackW × ResourceClassW :=
  match w.memo_racks with
  | some rs => (rs, w)
  | none =>
    let rs := ResourceClass.racksOf db w.row
    (rs, { w with memo_racks := some rs })

/-- `ResourceClass.resources_ids` for a freshly loaded wrapper: the unicode
ids of the racks currently attached to the class. -/
def ResourceClass.resources_ids (db : DB) (rc : ResourceClassRow) :
    List String :=
  (ResourceClass.racksOf db rc).map (fun r => r.id)

/-! ### Flavor -/

/-- `Flavor.get`. -/
def Flavor.get (db : DB) (flavor_id : Nat) : Option FlavorW :=
  (getUnique (fun f => f.id = flavor_id) db.flavors).map (fun r => ⟨r⟩)

/-- `Flavor.list`. -/
def Flavor.list (db : DB) : List FlavorW :=
  db.flavors.map (fun f => ⟨f⟩)

/-- `Flavor.create`: saves the flavor row, then creates the five sizing
Capacity rows; the Python method has no `return` statement, so it returns
`None` (the `none` second component). -/
def Flavor.create (db : DB) (name : String) (vcpu ram root_disk
    ephemeral_disk swap_disk : Int) : DB × Option FlavorW :=
  let f : FlavorRow := ⟨db.nextId, name⟩
  let db1 : DB :=
    { db with flavors := db.flavors ++ [f], nextId := db.nextId + 1 }
  let db2 := (Capacity.create db1 (Owner.flavor f.id) "vcpu" vcpu "").1
  let db3 := (Capacity.create db2 (Owner.flavor f.id) "ram" ram "MB").1
  let db4 :=
    (Capacity.create db3 (Owner.flavor f.id) "root_disk" root_disk "GB").1
  let db5 := (Capacity.create db4 (Owner.flavor f.id) "ephemeral_disk"
    ephemeral_disk "GB").1
  let db6 :=
    (Capacity.create db5 (Owner.flavor f.id) "swap_disk" swap_disk "MB").1
  (db6, none)

/-! ### ResourceClassFlavor -/

/-- `ResourceClassFlavor.create`: saves a new join row and returns its
wrapper. -/
def ResourceClassFlavor.create (db : DB) (resource_class_id flavor_id : Nat)
    (max_vms : Option Int) : DB × ResourceClassFlavorW :=
  let rc : ResourceClassFlavorRow :=
    ⟨db.nextId, resource_class_id, flavor_id, max_vms⟩
  ({ db with resource_class_flavors := db.resource_class_flavors ++ [rc],
             nextId := db.nextId + 1 },
   ⟨rc⟩)

/-- `ResourceClassFlavor.delete`: `filter(...).delete()` removes every row
matching the pair (zero or more — never raises). -/
def ResourceClassFlavor.delete (db : DB) (resource_class_id flavor_id : Nat) :
    DB :=
  let keep := db.resource_class_flavors.filter
    (fun r => ¬ (r.resource_class_id = resource_class_id ∧
                 r.flavor_id = flavor_id))
  { db with resource_class_flavors := keep }

/-! ### ResourceClass derived properties -/

/-- The ResourceClassFlavor rows of a resource class
(`self._apiresource.resourceclassflavor_set.all()`). -/
def ResourceClass.resource_class_flavorsOf (db : DB) (rc : ResourceClassRow) :
    List ResourceClassFlavorRow :=
  db.resource_class_flavors.filter (fun r => r.resource_class_id = rc.id)

/-- `ResourceClass.flavors_ids` for a freshly loaded wrapper: the unicode
ids of the flavors attached through the join table. -/
def ResourceClass.flavors_ids (db : DB) (rc : ResourceClassRow) :
    List String :=
  (ResourceClass.resource_class_flavorsOf db rc).map
    (fun r => toString r.flavor_id)

/-- The divisor `(vm.max_vms % 7) + 1` used by
`ResourceClass.running_virtual_machines`.  Python's `%` on a positive
modulus agrees with `Int.emod`. -/
def rvm_divisor (v : Int) : Int := v.emod 7 + 1

/-- The transform `vm.max_vms /= (vm.max_vms % 7) + 1` applied to each
deep-copied join row; Python 2 integer `/` is floor division (`Int.fdiv`). -/
def rvmTransform (v : Int) : Int := v.fdiv (rvm_divisor v)

/-- A deep-copied `ResourceClassFlavor` wrapper as returned from
`running_virtual_machines`: the copied row is untouched, while the
wrapper-level `max_vms` attribute has been overwritten by the assignment
`vm.max_vms /= ...` (which shadows the row attribute on the instance). -/
structure RunningVmCopy where
  row : ResourceClassFlavorRow
  max_vms_attr : Int
deriving DecidableEq, Repr

/-- One loop iteration of `running_virtual_machines`: reading `vm.max_vms`
when the row holds `None` raises a `TypeError` in Python (`none` here). -/
def rvmStep (r : ResourceClassFlavorRow) : Option RunningVmCopy :=
  match r.max_vms with
  | some v => some ⟨r, rvmTransform v⟩
  | none => none

/-- `ResourceClass.running_virtual_machines` for a freshly loaded wrapper:
deep-copies the join rows and overwrites each copy's `max_vms`. -/
def ResourceClass.running_virtual_machines (db : DB)
    (rc : ResourceClassRow) : Option (List RunningVmCopy) :=
  (ResourceClass.resource_class_flavorsOf db rc).mapM rvmStep

/-! ### ResourceClass aggregate properties -/

/-- The value slot of the transient Capacity built by the aggregate
properties: either the SQL sum or the translated fallback text. -/
inductive CapValue where
  | num (n : Int)
  | text (s : String)
deriving DecidableEq, Repr

/-- The unsaved `dummymodels.Capacity(name=..., value=..., unit=...)`
constructed by `total_cpu` / `total_ram` / `total_storage`. -/
structure AggCapacity where
  name : String
  value : CapValue
  unit : String
deriving DecidableEq, Repr

/-- The fallback value used when the aggregate query raises. -/
def unableText : String :=
  "Unable to retrieve (Are the hosts configured properly?)"

/-- The `host__rack__resource_class` join path of the aggregate filter: the
resource class reached from a capacity through its host's rack, when every
link exists. -/
def capacityHostRC (db : DB) (c : CapacityRow) : Option Nat :=
  match c.content_object with
  | Owner.host hid => do
    let h ← db.hosts.find? (fun x => x.id = hid)
    let rid ← h.rack_id
    let r ← db.racks.find? (fun x => x.id = rid)
    r.resource_class_id
  | _ => none

/-- The capacity rows selected by
`Capacity.objects.filter(host__rack__resource_class=self._apiresource)`
further filtered on `name`. -/
def relevantCaps (db : DB) (rcId : Nat) (nm : String) : List CapacityRow :=
  db.capacities.filter
    (fun c => c.name = nm ∧ capacityHostRC db c = some rcId)

/-- The aggregate query
`values('name', 'unit').annotate(value=Sum('value')).filter(name=nm)[0]`
with the broad `except` fallback: rows are grouped by `(name, unit)`; `[0]`
takes the first group (here: the group of the first matching row); an empty
result raises `IndexError`, caught and replaced by the fallback attrs. -/
def totalAgg (db : DB) (rcId : Nat) (nm : String) : AggCapacity :=
  match relevantCaps db rcId nm with
  | [] => ⟨nm, CapValue.text unableText, ""⟩
  | c :: rest =>
    let grp := (c :: rest).filter (fun x => x.unit = c.unit)
    ⟨nm, CapValue.num (grp.map (fun x => x.value)).sum, c.unit⟩

/-- `ResourceClass.total_cpu`. -/
def ResourceClass.total_cpu (db : DB) (rc : ResourceClassRow) : AggCapacity :=
  totalAgg db rc.id "cpu"

/-- `ResourceClass.total_ram`. -/
def ResourceClass.total_ram (db : DB) (rc : ResourceClassRow) : AggCapacity :=
  totalAgg db rc.id "ram"

/-- `ResourceClass.total_storage`. -/
def ResourceClass.total_storage (db : DB) (rc : ResourceClassRow) :
    AggCapacity :=
  totalAgg db rc.id "storage"

/-! ### ResourceClass association updates -/

/-- One iteration of the `set_resources` loops: `Rack.get`, assign
`resource_class`, `save()`. -/
def Rack.setRC (db : DB) (rack_id : Nat) (v : Option Nat) : Option DB :=
  (Rack.get db rack_id).map
    (fun r => Rack.save db { r.row with resource_class_id := v })

/-- `ResourceClass.set_resources` called on a freshly loaded wrapper:
first every currently attached rack is detached (`resource_class = None`),
then every rack in the given list is attached to this class. -/
def ResourceClass.set_resources (db : DB) (rc : ResourceClassRow)
    (resources_ids : List Nat) : Option DB := do
  let db1 ← ((db.racks.filter
    (fun r => r.resource_class_id = some rc.id)).map
      (fun r => r.id)).foldlM (fun d rid => Rack.setRC d rid none) db
  resources_ids.foldlM (fun d rid => Rack.setRC d rid (some rc.id)) db1

/-- `ResourceClass.set_flavors` called on a freshly loaded wrapper: deletes
every existing join row of this class, then recreates one per given flavor
id with `max_vms.get(flavor.id)` (the association list lookup, `none` when
the key is absent). -/
def ResourceClass.set_flavors (db : DB) (rc : ResourceClassRow)
    (flavors_ids : List Nat) (max_vms : List (Nat × Int)) : Option DB :=
  flavors_ids.foldlM
    (fun d fid => do
      let fl ← Flavor.get d fid
      pure (ResourceClassFlavor.create d rc.id fl.row.id
        (max_vms.lookup fid)).1)
    (((db.resource_class_flavors.filter
        (fun r => r.resource_class_id = rc.id)).map
          (fun r => r.flavor_id)).foldl
      (fun d fid => ResourceClassFlavor.delete d rc.id fid) db)

/-! ## Example databases used by witnesses and counterexamples -/

/-- Database with one resource class (id 1) and one flavor (id 1). -/
def c1db : DB :=
  ⟨[], [], [], [⟨1, "rc1", "compute"⟩], [⟨1, "f1"⟩], [], 2⟩

/-- State of `c1db` after `ResourceClass.delete(request, 1)`. -/
def c1dbAfter : DB :=
  ⟨[], [], [], [⟨1, "rc1", "compute"⟩], [], [], 2⟩

/-- Empty database. -/
def c6db : DB := ⟨[], [], [], [], [], [], 1⟩

/-- Database with one resource class holding one join row with
`max_vms = 10`. -/
def c5db : DB :=
  ⟨[], [], [], [⟨1, "rc1", "compute"⟩], [⟨2, "f1"⟩], [⟨3, 1, 2, some 10⟩], 4⟩

/-- The resource-class row of `c5db`. -/
def c5rc : ResourceClassRow := ⟨1, "rc1", "compute"⟩

/-! ## Claim theorems -/

/-- **C10**: for every integer `max_vms`, the divisor `(max_vms % 7) + 1`
computed inside `ResourceClass.running_virtual_machines` lies between 1 and 7
inclusive, so the division never divides by zero. -/
theorem rvm_divisor_between_one_and_seven (v : Int) :
    (1 ≤ rvm_divisor v ∧ rvm_divisor v ≤ 7) ∧ rvm_divisor v ≠ 0 := by
  unfold rvm_divisor
  have h1 : 0 ≤ v.emod 7 := Int.emod_nonneg v (by decide)
  have h2 : v.emod 7 < 7 := Int.emod_lt_of_pos v (by decide)
  omega

/-- **C7**: for every wrapper instance of every entity class, the `id`
attribute equals the string coercion of the underlying row's id. -/
theorem wrapper_id_eq_string_of_row_id :
    (∀ w : CapacityW, w.id = toString w.row.id) ∧
    (∀ w : HostW, w.id = toString w.row.id) ∧
    (∀ w : RackW, w.id = toString w.row.id) ∧
    (∀ w : ResourceClassW, w.id = toString w.row.id) ∧
    (∀ w : FlavorW, w.id = toString w.row.id) ∧
    (∀ w : ResourceClassFlavorW, w.id = toString w.row.id) :=
  ⟨fun _ => rfl, fun _ => rfl, fun _ => rfl, fun _ => rfl, fun _ => rfl,
   fun _ => rfl⟩

/-- **C8**: `Rack.list(request, only_free_racks=True)` returns exactly the
subset of `Rack.list(request)` whose underlying rack has a null
`resource_class_id`, in the same relative order. -/
theorem rack_list_only_free_filters_unassigned (db : DB) :
    Rack.list db true =
      (Rack.list db false).filter
        (fun w => w.row.resource_class_id = none) := by
  have h1 : Rack.list db true =
      (db.racks.filter (fun r => r.resource_class_id = none)).map
        (fun r => ⟨r, none, none⟩) := rfl
  have h2 : Rack.list db false =
      db.racks.map (fun r => ⟨r, none, none⟩) := rfl
  rw [h1, h2, List.filter_map]
  rfl

/-- **C1** (code bug): `ResourceClass.delete(request, 1)` on a database
holding ResourceClass row 1 and Flavor row 1 deletes the *Flavor* row and
leaves the ResourceClass row in place, so a subsequent
`ResourceClass.get(request, 1)` still succeeds — the method body was
copy-pasted from `Flavor.delete` and targets the wrong table. -/
theorem resourceClass_delete_removes_flavor_row :
    ResourceClass.delete c1db 1 = some c1dbAfter ∧
    ResourceClass.get c1dbAfter 1 = some ⟨⟨1, "rc1", "compute"⟩, none⟩ ∧
    c1dbAfter.flavors = [] ∧ c1db.flavors ≠ [] := by decide

/-- **C6** (counterexample): `Rack.create` and `Flavor.create` persist the
new row but return `None`, not a wrapper of the row. -/
theorem rack_and_flavor_create_return_none :
    (Rack.create c6db "r1" none "loc" "sub").2 = none ∧
    (Rack.create c6db "r1" none "loc" "sub").1.racks ≠ [] ∧
    (Flavor.create c6db "f1" 1 2 3 4 5).2 = none ∧
    (Flavor.create c6db "f1" 1 2 3 4 5).1.flavors ≠ [] := by decide

/-- **C6** (amended): every `create` classmethod persists a new row with the
given field values; `Capacity.create`, `ResourceClass.create` and
`ResourceClassFlavor.create` return a wrapper of that row, while
`Rack.create` and `Flavor.create` return `None` (`Flavor.create`
additionally persists the five sizing Capacity rows). -/
theorem create_methods_persist_rows (db : DB) (co : Owner)
    (nm : String) (v : Int) (u rname : String) (rcid : Option Nat)
    (loc sub cname stype fname : String) (vcpu ram rd ed sd : Int)
    (rcid2 fid2 : Nat) (mv : Option Int) :
    (Capacity.create db co nm v u).1.capacities =
        db.capacities ++ [⟨db.nextId, co, nm, v, u⟩] ∧
    (Capacity.create db co nm v u).2.row = ⟨db.nextId, co, nm, v, u⟩ ∧
    (Rack.create db rname rcid loc sub).1.racks =
        db.racks ++ [⟨db.nextId, rname, rcid, loc, sub⟩] ∧
    (Rack.create db rname rcid loc sub).2 = none ∧
    (ResourceClass.create db cname stype).1.resource_classes =
        db.resource_classes ++ [⟨db.nextId, cname, stype⟩] ∧
    (ResourceClass.create db cname stype).2.row = ⟨db.nextId, cname, stype⟩ ∧
    (Flavor.create db fname vcpu ram rd ed sd).1.flavors =
        db.flavors ++ [⟨db.nextId, fname⟩] ∧
    (Flavor.create db fname vcpu ram rd ed sd).1.capacities =
        db.capacities ++ [⟨db.nextId + 1, .flavor db.nextId, "vcpu", vcpu, ""⟩]
          ++ [⟨db.nextId + 2, .flavor db.nextId, "ram", ram, "MB"⟩]
          ++ [⟨db.nextId + 3, .flavor db.nextId, "root_disk", rd, "GB"⟩]
          ++ [⟨db.nextId + 4, .flavor db.nextId, "ephemeral_disk", ed, "GB"⟩]
          ++ [⟨db.nextId + 5, .flavor db.nextId, "swap_disk", sd, "MB"⟩] ∧
    (Flavor.create db fname vcpu ram rd ed sd).2 = none ∧
    (ResourceClassFlavor.create db rcid2 fid2 mv).1.resource_class_flavors =
        db.resource_class_flavors ++ [⟨db.nextId, rcid2, fid2, mv⟩] ∧
    (ResourceClassFlavor.create db rcid2 fid2 mv).2.row =
        ⟨db.nextId, rcid2, fid2, mv⟩ :=
  ⟨rfl, rfl, rfl, rfl, rfl, rfl, rfl, rfl, rfl, rfl, rfl⟩

/-- Auxiliary: mapping `rvmStep` over rows succeeds and yields the copies
when no row's `max_vms` is `None`. -/
theorem rvm_mapM_of_all_some (l : List ResourceClassFlavorRow)
    (h : ∀ r ∈ l, r.max_vms ≠ none) :
    l.mapM rvmStep =
      some (l.map (fun r => ⟨r, rvmTransform (r.max_vms.getD 0)⟩)) := by
  induction l with
  | nil => rfl
  | cons a t ih =>
    have ha : a.max_vms ≠ none := h a (List.mem_cons_self a t)
    have ht : ∀ r ∈ t, r.max_vms ≠ none :=
      fun r hr => h r (List.mem_cons_of_mem a hr)
    rw [List.mapM_cons, ih ht]
    cases hva : a.max_vms with
    | none => exact absurd hva ha
    | some v => simp [rvmStep, hva]

/-- **C5**: `running_virtual_machines` returns deep copies of the class's
ResourceClassFlavor rows in which each copy's `max_vms` attribute is
`max_vms / ((max_vms % 7) + 1)` (Python 2 floor division), while the copied
rows themselves — and the database — are left unchanged. -/
theorem running_virtual_machines_transforms_copies (db : DB)
    (rc : ResourceClassRow)
    (h : ∀ r ∈ ResourceClass.resource_class_flavorsOf db rc,
      r.max_vms ≠ none) :
    ResourceClass.running_virtual_machines db rc =
      some ((ResourceClass.resource_class_flavorsOf db rc).map
        (fun r => ⟨r, rvmTransform (r.max_vms.getD 0)⟩)) :=
  rvm_mapM_of_all_some _ h

/-- **C5** witness: on `c5db`, the single join row with `max_vms = 10`
yields the copy with untouched row and attribute `10 / ((10 % 7) + 1) = 2`. -/
theorem running_virtual_machines_transforms_copies_witness :
    (∀ r ∈ ResourceClass.resource_class_flavorsOf c5db c5rc,
      r.max_vms ≠ none) ∧
    ResourceClass.running_virtual_machines c5db c5rc =
      some [⟨⟨3, 1, 2, some 10⟩, 2⟩] :=
  ⟨by decide,
   by rw [running_virtual_machines_transforms_copies c5db c5rc (by decide)]
      decide⟩

/-- **C9**: relationship properties (`Host.capacities`, `Rack.hosts`,
`ResourceClass.racks`) are computed from the database on first access and
memoised on the instance: a later access on the returned instance yields the
first result unchanged, whatever the database then holds. -/
theorem relationship_properties_memoized (hw : HostW) (kw : RackW)
    (cw : ResourceClassW) (db db2 : DB)
    (h1 : hw.memo_capacities = none) (h2 : kw.memo_hosts = none)
    (h3 : cw.memo_racks = none) :
    ((Host.capacities hw db).1 = Host.capacitiesOf db hw.row ∧
      Host.capacities (Host.capacities hw db).2 db2 =
        Host.capacities hw db) ∧
    ((Rack.hosts kw db).1 = Rack.hostsOf db kw.row ∧
      Rack.hosts (Rack.hosts kw db).2 db2 = Rack.hosts kw db) ∧
    ((ResourceClass.racks cw db).1 = ResourceClass.racksOf db cw.row ∧
      ResourceClass.racks (ResourceClass.racks cw db).2 db2 =
        ResourceClass.racks cw db) := by
  refine ⟨⟨?_, ?_⟩, ⟨?_, ?_⟩, ⟨?_, ?_⟩⟩ <;>
    simp [Host.capacities, Rack.hosts, ResourceClass.racks, h1, h2, h3]

/-- **C9** witness: a fresh Host wrapper memoises its capacities computed
from `c5db`; re-accessing against the empty database `c6db` returns the same
result. -/
theorem relationship_properties_memoized_witness :
    ((⟨⟨7, "h", "", "", "", "", none⟩, none⟩ : HostW).memo_capacities =
        none ∧
      (⟨⟨8, "r", none, "", ""⟩, none, none⟩ : RackW).memo_hosts = none ∧
      (⟨⟨9, "rc", "x"⟩, none⟩ : ResourceClassW).memo_racks = none) ∧
    Host.capacities
        (Host.capacities ⟨⟨7, "h", "", "", "", "", none⟩, none⟩ c5db).2
        c6db =
      Host.capacities ⟨⟨7, "h", "", "", "", "", none⟩, none⟩ c5db :=
  ⟨⟨rfl, rfl, rfl⟩,
   ((relationship_properties_memoized ⟨⟨7, "h", "", "", "", "", none⟩, none⟩
      ⟨⟨8, "r", none, "", ""⟩, none, none⟩ ⟨⟨9, "rc", "x"⟩, none⟩
      c5db c6db rfl rfl rfl).1).2⟩

/-! ## C4: the aggregate properties -/

/-- Auxiliary: with no matching capacity row the aggregate query raises
`IndexError` and the fallback attrs are used. -/
theorem totalAgg_of_empty (db : DB) (rcId : Nat) (nm : String)
    (h : relevantCaps db rcId nm = []) :
    totalAgg db rcId nm = ⟨nm, CapValue.text unableText, ""⟩ := by
  unfold totalAgg
  rw [h]

/-- Auxiliary: when every matching capacity row carries the same unit, the
single `(name, unit)` group contains all of them and the aggregate is the
sum of all their values. -/
theorem totalAgg_of_uniform_unit (db : DB) (rcId : Nat) (nm u : String)
    (hne : relevantCaps db rcId nm ≠ [])
    (hu : ∀ c ∈ relevantCaps db rcId nm, c.unit = u) :
    totalAgg db rcId nm =
      ⟨nm, CapValue.num ((relevantCaps db rcId nm).map
        (fun c => c.value)).sum, u⟩ := by
  cases hcaps : relevantCaps db rcId nm with
  | nil => exact absurd hcaps hne
  | cons c rest =>
    have hmem : ∀ x ∈ c :: rest, x.unit = u := by
      intro x hx
      exact hu x (hcaps ▸ hx)
    have hcu : c.unit = u := hmem c (List.mem_cons_self c rest)
    have hfil : (c :: rest).filter (fun x => x.unit = c.unit) = c :: rest :=
      List.filter_eq_self.mpr (by
        intro x hx
        simp [hmem x hx, hcu])
    have hbody : totalAgg db rcId nm =
        ⟨nm, CapValue.num (((c :: rest).filter (fun x => x.unit = c.unit)).map
          (fun x => x.value)).sum, c.unit⟩ := by
      unfold totalAgg
      rw [hcaps]
    rw [hbody, hfil, hcu]

/-- Database refuting C4 as stated: one resource class (id 1), one rack
(id 2) in it, one host (id 3) in the rack, and two `cpu` capacity rows with
values 4 and 8 but different units. -/
def c4db : DB :=
  ⟨[⟨4, Owner.host 3, "cpu", 4, ""⟩, ⟨5, Owner.host 3, "cpu", 8, "MHz"⟩],
   [⟨3, "h1", "", "", "", "", some 2⟩],
   [⟨2, "r1", some 1, "", ""⟩],
   [⟨1, "rc1", "compute"⟩], [], [], 6⟩

/-- The resource-class row of `c4db`. -/
def c4rc : ResourceClassRow := ⟨1, "rc1", "compute"⟩

/-- **C4** (counterexample): with two `cpu` rows of values 4 and 8 under the
class's hosts but of different units, `total_cpu` does not return their sum
12 — the aggregate groups by `(name, unit)` and takes only the first group,
yielding 4. -/
theorem total_cpu_mixed_units_not_total_sum :
    relevantCaps c4db 1 "cpu" ≠ [] ∧
    ((relevantCaps c4db 1 "cpu").map (fun c => c.value)).sum = 12 ∧
    ResourceClass.total_cpu c4db c4rc = ⟨"cpu", CapValue.num 4, ""⟩ ∧
    (ResourceClass.total_cpu c4db c4rc).value ≠ CapValue.num 12 := by
  decide

/-- **C4** (amended): `total_cpu` returns the fixed sentinel text with empty
unit when no `cpu` capacity rows exist under hosts of the class's racks;
otherwise it returns the sum of the values in the first `(name, unit)`
group, which equals the sum of all those rows' values whenever they share a
single unit (e.g. 4 and 8 give 12); the same holds for `total_ram` with
`ram` and `total_storage` with `storage`. -/
theorem total_aggregates_sentinel_or_group_sum (db : DB)
    (rc : ResourceClassRow) :
    (relevantCaps db rc.id "cpu" = [] →
      ResourceClass.total_cpu db rc = ⟨"cpu", CapValue.text unableText, ""⟩) ∧
    (∀ c rest, relevantCaps db rc.id "cpu" = c :: rest →
      ResourceClass.total_cpu db rc = ⟨"cpu", CapValue.num
        (((c :: rest).filter (fun x => x.unit = c.unit)).map
          (fun x => x.value)).sum, c.unit⟩) ∧
    (∀ u, relevantCaps db rc.id "cpu" ≠ [] →
      (∀ c ∈ relevantCaps db rc.id "cpu", c.unit = u) →
      ResourceClass.total_cpu db rc = ⟨"cpu", CapValue.num
        ((relevantCaps db rc.id "cpu").map (fun c => c.value)).sum, u⟩) ∧
    (relevantCaps db rc.id "ram" = [] →
      ResourceClass.total_ram db rc = ⟨"ram", CapValue.text unableText, ""⟩) ∧
    (∀ u, relevantCaps db rc.id "ram" ≠ [] →
      (∀ c ∈ relevantCaps db rc.id "ram", c.unit = u) →
      ResourceClass.total_ram db rc = ⟨"ram", CapValue.num
        ((relevantCaps db rc.id "ram").map (fun c => c.value)).sum, u⟩) ∧
    (relevantCaps db rc.id "storage" = [] →
      ResourceClass.total_storage db rc =
        ⟨"storage", CapValue.text unableText, ""⟩) ∧
    (∀ u, relevantCaps db rc.id "storage" ≠ [] →
      (∀ c ∈ relevantCaps db rc.id "storage", c.unit = u) →
      ResourceClass.total_storage db rc = ⟨"storage", CapValue.num
        ((relevantCaps db rc.id "storage").map (fun c => c.value)).sum, u⟩) := by
  refine ⟨fun h => totalAgg_of_empty db rc.id "cpu" h, ?_,
    fun u hne hu => totalAgg_of_uniform_unit db rc.id "cpu" u hne hu,
    fun h => totalAgg_of_empty db rc.id "ram" h,
    fun u hne hu => totalAgg_of_uniform_unit db rc.id "ram" u hne hu,
    fun h => totalAgg_of_empty db rc.id "storage" h,
    fun u hne hu => totalAgg_of_uniform_unit db rc.id "storage" u hne hu⟩
  intro c rest hcaps
  unfold ResourceClass.total_cpu totalAgg
  rw [hcaps]

/-- Database for the C4 witness: two hosts under racks of resource class 1
with same-unit `cpu` capacities 4 and 8, and no `ram` rows. -/
def c4wdb : DB :=
  ⟨[⟨6, Owner.host 4, "cpu", 4, ""⟩, ⟨7, Owner.host 5, "cpu", 8, ""⟩],
   [⟨4, "h1", "", "", "", "", some 2⟩, ⟨5, "h2", "", "", "", "", some 3⟩],
   [⟨2, "r1", some 1, "", ""⟩, ⟨3, "r2", some 1, "", ""⟩],
   [⟨1, "rc1", "compute"⟩], [], [], 8⟩

/-- **C4** witness: on `c4wdb`, two hosts with cpu capacities 4 and 8 under
racks of resource class 1 give `total_cpu.value = 12`, and with no `ram`
rows `total_ram` is the sentinel. -/
theorem total_aggregates_sentinel_or_group_sum_witness :
    (relevantCaps c4wdb 1 "cpu" ≠ [] ∧
      (∀ c ∈ relevantCaps c4wdb 1 "cpu", c.unit = "") ∧
      relevantCaps c4wdb 1 "ram" = []) ∧
    ResourceClass.total_cpu c4wdb ⟨1, "rc1", "compute"⟩ =
      ⟨"cpu", CapValue.num 12, ""⟩ ∧
    ResourceClass.total_ram c4wdb ⟨1, "rc1", "compute"⟩ =
      ⟨"ram", CapValue.text unableText, ""⟩ := by
  refine ⟨⟨by decide, by decide, by decide⟩, ?_, ?_⟩
  · rw [((total_aggregates_sentinel_or_group_sum c4wdb
      ⟨1, "rc1", "compute"⟩).2.2.1) "" (by decide) (by decide)]
    decide
  · rw [((total_aggregates_sentinel_or_group_sum c4wdb
      ⟨1, "rc1", "compute"⟩).2.2.2.1) (by decide)]

/-! ## C2: `set_resources` machinery -/

/-- Auxiliary: in a list whose keys (under `f`) are pairwise distinct,
filtering on the key of a member yields exactly that member. -/
theorem filter_eq_singleton_of_nodup_key {α β : Type} [DecidableEq β]
    (f : α → β) : ∀ (l : List α), (l.map f).Nodup → ∀ a ∈ l,
    l.filter (fun x => f x = f a) = [a] := by
  intro l
  induction l with
  | nil =>
    intro _ a ha
    exact absurd ha (List.not_mem_nil a)
  | cons b t ih =>
    intro hnd a ha
    rw [List.map_cons, List.nodup_cons] at hnd
    obtain ⟨hb, hndt⟩ := hnd
    rcases List.mem_cons.mp ha with rfl | hat
    · have hrest : t.filter (fun x => f x = f a) = [] :=
        List.filter_eq_nil_iff.mpr (by
          intro x hx
          simp only [decide_eq_true_eq]
          intro hfx
          exact hb (hfx ▸ List.mem_map_of_mem f hx))
      rw [List.filter_cons_of_pos (by simp), hrest]
    · have hfb : ¬ (f b = f a) := by
        intro h
        exact hb (h ▸ List.mem_map_of_mem f hat)
      rw [List.filter_cons_of_neg (by simp [hfb])]
      exact ih hndt a hat

/-- Auxiliary: two members of a list with pairwise-distinct keys and equal
keys are the same element. -/
theorem mem_eq_of_nodup_key {α β : Type} [DecidableEq β] (f : α → β)
    (l : List α) (hnd : (l.map f).Nodup) {x a : α} (hx : x ∈ l) (ha : a ∈ l)
    (h : f x = f a) : x = a := by
  have hfil := filter_eq_singleton_of_nodup_key f l hnd a ha
  have hxf : x ∈ l.filter (fun y => f y = f a) :=
    List.mem_filter.mpr ⟨hx, by simp [h]⟩
  rw [hfil] at hxf
  exact List.mem_singleton.mp hxf

/-- Auxiliary: `Rack.get` on the id of a stored rack returns that rack,
provided rack ids are pairwise distinct. -/
theorem rack_get_eq (db : DB)
    (hnd : (db.racks.map (fun r => r.id)).Nodup)
    (r : RackRow) (hr : r ∈ db.racks) :
    Rack.get db r.id = some ⟨r, none, none⟩ := by
  unfold Rack.get getUnique
  rw [filter_eq_singleton_of_nodup_key (fun x : RackRow => x.id)
    db.racks hnd r hr]
  rfl

/-- Auxiliary: one `set_resources` loop iteration updates exactly the
`resource_class_id` of the targeted rack. -/
theorem setRC_eq (db : DB)
    (hnd : (db.racks.map (fun r => r.id)).Nodup)
    (r : RackRow) (hr : r ∈ db.racks) (v : Option Nat) :
    Rack.setRC db r.id v = some
      { db with racks := db.racks.map (fun x =>
          if x.id = r.id then { x with resource_class_id := v } else x) } := by
  unfold Rack.setRC
  rw [rack_get_eq db hnd r hr]
  unfold Rack.save
  simp only [Option.map_some']
  congr 2
  apply List.map_congr_left
  intro x hx
  by_cases hxr : x.id = r.id
  · have : x = r := mem_eq_of_nodup_key (fun y : RackRow => y.id)
      db.racks hnd hx hr hxr
    subst this
    simp
  · simp [hxr]

/-- Auxiliary: the rack-id column is unchanged by the pointwise
`resource_class_id` update. -/
theorem updRC_ids (l : List RackRow) (P : RackRow → Prop) [DecidablePred P]
    (v : Option Nat) :
    (l.map (fun x => if P x then { x with resource_class_id := v } else x)).map
        (fun r => r.id) =
      l.map (fun r => r.id) := by
  rw [List.map_map]
  apply List.map_congr_left
  intro x _
  by_cases h : P x <;> simp [h]

/-- Auxiliary: a loop of `set_resources` iterations over rack ids that are
all present assigns `v` to exactly the racks whose id is in the list. -/
theorem foldlM_setRC (v : Option Nat) : ∀ (rids : List Nat) (db : DB),
    (db.racks.map (fun r => r.id)).Nodup →
    (∀ rid ∈ rids, rid ∈ db.racks.map (fun r => r.id)) →
    rids.foldlM (fun d rid => Rack.setRC d rid v) db =
      some { db with racks := db.racks.map (fun x =>
        if x.id ∈ rids then { x with resource_class_id := v } else x) } := by
  intro rids
  induction rids with
  | nil =>
    intro db _ _
    rw [List.foldlM_nil]
    simp [List.map_id']
  | cons rid rest ih =>
    intro db hnd hmem
    obtain ⟨r, hr, hrid⟩ :=
      List.mem_map.mp (hmem rid (List.mem_cons_self rid rest))
    rw [List.foldlM_cons]
    subst hrid
    rw [setRC_eq db hnd r hr]
    have hupd := updRC_ids db.racks (fun x => x.id = r.id) v
    have hnd1 : ((db.racks.map (fun x =>
        if x.id = r.id then { x with resource_class_id := v } else x)).map
          (fun x => x.id)).Nodup := by
      rw [hupd]
      exact hnd
    have hmem1 : ∀ q ∈ rest, q ∈ (db.racks.map (fun x =>
        if x.id = r.id then { x with resource_class_id := v } else x)).map
          (fun x => x.id) := by
      intro q hq
      rw [hupd]
      exact hmem q (List.mem_cons_of_mem _ hq)
    simp only [Option.some_bind, bind, Option.bind]
    rw [ih _ hnd1 hmem1]
    congr 2
    rw [List.map_map]
    apply List.map_congr_left
    intro x hx
    by_cases h1 : x.id = r.id
    · by_cases h2 : x.id ∈ rest <;>
        simp [Function.comp, h1, h2, List.mem_cons]
    · by_cases h2 : x.id ∈ rest <;>
        simp [Function.comp, h1, h2, List.mem_cons]

/-- Auxiliary: `ResourceClass.get` on the id of a stored resource class
returns that class, provided resource-class ids are pairwise distinct. -/
theorem resource_class_get_eq (db : DB)
    (hnd : (db.resource_classes.map (fun c => c.id)).Nodup)
    (rc : ResourceClassRow) (hrc : rc ∈ db.resource_classes) :
    ResourceClass.get db rc.id = some ⟨rc, none⟩ := by
  unfold ResourceClass.get getUnique
  rw [filter_eq_singleton_of_nodup_key (fun x : ResourceClassRow => x.id)
    db.resource_classes hnd rc hrc]
  rfl

/-- Auxiliary: full characterisation of `set_resources` — racks named in the
list end up attached to the class, racks previously attached and not named
end up detached, and everything else is untouched. -/
theorem set_resources_racks (db : DB) (rc : ResourceClassRow)
    (ids : List Nat)
    (hnd : (db.racks.map (fun r => r.id)).Nodup)
    (hids : ∀ rid ∈ ids, rid ∈ db.racks.map (fun r => r.id)) :
    ResourceClass.set_resources db rc ids = some
      { db with racks := db.racks.map (fun x =>
          if x.id ∈ ids then { x with resource_class_id := some rc.id }
          else if x.resource_class_id = some rc.id then
            { x with resource_class_id := none }
          else x) } := by
  have hiff : ∀ x ∈ db.racks,
      (x.id ∈ (db.racks.filter
          (fun r => r.resource_class_id = some rc.id)).map (fun r => r.id) ↔
        x.resource_class_id = some rc.id) := by
    intro x hx
    constructor
    · intro hmem
      obtain ⟨y, hy, hyid⟩ := List.mem_map.mp hmem
      have hyx : y = x := mem_eq_of_nodup_key (fun z : RackRow => z.id)
        db.racks hnd (List.mem_filter.mp hy).1 hx hyid
      have hp := (List.mem_filter.mp hy).2
      rw [hyx] at hp
      exact of_decide_eq_true hp
    · intro hrc
      exact List.mem_map_of_mem _ (List.mem_filter.mpr ⟨hx, by simp [hrc]⟩)
  have hold_mem : ∀ rid ∈ (db.racks.filter
      (fun r => r.resource_class_id = some rc.id)).map (fun r => r.id),
      rid ∈ db.racks.map (fun r => r.id) := by
    intro rid hrid
    obtain ⟨y, hy, hyid⟩ := List.mem_map.mp hrid
    exact hyid ▸ List.mem_map_of_mem _ (List.mem_filter.mp hy).1
  unfold ResourceClass.set_resources
  rw [foldlM_setRC none _ db hnd hold_mem]
  simp only [Option.some_bind, bind, Option.bind]
  have hupd := updRC_ids db.racks (fun x => x.id ∈ (db.racks.filter
    (fun r => r.resource_class_id = some rc.id)).map (fun r => r.id)) none
  have hnd1 : ((db.racks.map (fun x =>
      if x.id ∈ (db.racks.filter
          (fun r => r.resource_class_id = some rc.id)).map (fun r => r.id)
      then { x with resource_class_id := none } else x)).map
        (fun r => r.id)).Nodup := by
    rw [hupd]
    exact hnd
  have hids1 : ∀ rid ∈ ids, rid ∈ ((db.racks.map (fun x =>
      if x.id ∈ (db.racks.filter
          (fun r => r.resource_class_id = some rc.id)).map (fun r => r.id)
      then { x with resource_class_id := none } else x)).map
        (fun r => r.id)) := by
    intro rid hrid
    rw [hupd]
    exact hids rid hrid
  rw [foldlM_setRC (some rc.id) ids _ hnd1 hids1]
  congr 2
  rw [List.map_map]
  apply List.map_congr_left
  intro x hx
  by_cases hold : x.id ∈ (db.racks.filter
      (fun r => r.resource_class_id = some rc.id)).map (fun r => r.id)
  · have hrcx : x.resource_class_id = some rc.id := (hiff x hx).mp hold
    by_cases hin : x.id ∈ ids
    · simp [Function.comp, hold, hin]
    · simp [Function.comp, hold, hin, hrcx]
  · have hrcx : ¬ x.resource_class_id = some rc.id :=
      fun h => hold ((hiff x hx).mpr h)
    by_cases hin : x.id ∈ ids
    · simp [Function.comp, hold, hin]
    · simp [Function.comp, hold, hin, hrcx]

/-- **C2**: after `set_resources(request, rc_id, [r1, r2])` on a database
holding all named rows, the freshly reloaded class's `resources_ids` is the
set `{r1, r2}`, and every rack previously attached to the class but not in
the new list has a null `resource_class_id`. -/
theorem set_resources_replaces_rack_associations (db : DB)
    (rc : ResourceClassRow) (r1 r2 : Nat)
    (hnd : (db.racks.map (fun r => r.id)).Nodup)
    (hrcnd : (db.resource_classes.map (fun c => c.id)).Nodup)
    (hrc : rc ∈ db.resource_classes)
    (h1 : r1 ∈ db.racks.map (fun r => r.id))
    (h2 : r2 ∈ db.racks.map (fun r => r.id)) :
    ∃ db2, ResourceClass.set_resources db rc [r1, r2] = some db2 ∧
      ResourceClass.get db2 rc.id = some ⟨rc, none⟩ ∧
      (ResourceClass.resources_ids db2 rc).toFinset =
        {toString r1, toString r2} ∧
      ∀ x ∈ db.racks, x.resource_class_id = some rc.id →
        x.id ≠ r1 → x.id ≠ r2 →
        ∃ x2 ∈ db2.racks, x2.id = x.id ∧ x2.resource_class_id = none := by
  have hids : ∀ rid ∈ [r1, r2], rid ∈ db.racks.map (fun r => r.id) := by
    intro rid hrid
    rcases List.mem_cons.mp hrid with rfl | hrid2
    · exact h1
    · rcases List.mem_cons.mp hrid2 with rfl | hnil
      · exact h2
      · exact absurd hnil (List.not_mem_nil rid)
  refine ⟨_, set_resources_racks db rc [r1, r2] hnd hids, ?_, ?_, ?_⟩
  · exact resource_class_get_eq _ hrcnd rc hrc
  · have hres : ResourceClass.resources_ids
        { db with racks := db.racks.map (fun x =>
            if x.id ∈ ([r1, r2] : List Nat) then
              { x with resource_class_id := some rc.id }
            else if x.resource_class_id = some rc.id then
              { x with resource_class_id := none }
            else x) } rc =
        (db.racks.filter (fun x => x.id = r1 ∨ x.id = r2)).map
          (fun x => toString x.id) := by
      unfold ResourceClass.resources_ids ResourceClass.racksOf
      rw [List.map_map, List.filter_map, List.map_map, List.filter_congr
        (q := fun x => x.id = r1 ∨ x.id = r2) ?_]
      · apply List.map_congr_left
        intro x _
        by_cases ha : x.id ∈ ([r1, r2] : List Nat)
        · simp [Function.comp, RackW.id, ha]
        · by_cases hb : x.resource_class_id = some rc.id <;>
            simp [Function.comp, RackW.id, ha, hb]
      · intro x _
        by_cases ha : x.id ∈ ([r1, r2] : List Nat)
        · have : x.id = r1 ∨ x.id = r2 := by
            simpa using ha
          simp [Function.comp, ha, this]
        · have : ¬ (x.id = r1 ∨ x.id = r2) := by
            simpa using ha
          by_cases hb : x.resource_class_id = some rc.id <;>
            simp [Function.comp, ha, hb, this]
    rw [hres]
    apply Finset.ext
    intro s
    simp only [List.mem_toFinset, List.mem_map, List.mem_filter,
      Finset.mem_insert, Finset.mem_singleton, decide_eq_true_eq]
    constructor
    · rintro ⟨x, ⟨_, hcond⟩, rfl⟩
      rcases hcond with h | h
      · exact Or.inl (by rw [h])
      · exact Or.inr (by rw [h])
    · intro hs
      rcases hs with rfl | rfl
      · obtain ⟨x, hx, hxid⟩ := List.mem_map.mp h1
        exact ⟨x, ⟨hx, Or.inl hxid⟩, by rw [hxid]⟩
      · obtain ⟨x, hx, hxid⟩ := List.mem_map.mp h2
        exact ⟨x, ⟨hx, Or.inr hxid⟩, by rw [hxid]⟩
  · intro x hx hxrc hne1 hne2
    have hxin : ¬ x.id ∈ ([r1, r2] : List Nat) := by simp [hne1, hne2]
    refine ⟨{ x with resource_class_id := none }, ?_, rfl, rfl⟩
    have hFx : (fun y : RackRow =>
        if y.id ∈ ([r1, r2] : List Nat) then
          { y with resource_class_id := some rc.id }
        else if y.resource_class_id = some rc.id then
          { y with resource_class_id := none }
        else y) x = { x with resource_class_id := none } := by
      simp [hxin, hxrc]
    exact hFx ▸ List.mem_map_of_mem _ hx

/-- Database for the C2 witness: rack 1 attached to class 10, racks 2 and 3
free. -/
def c2db : DB :=
  ⟨[], [],
   [⟨1, "r1", some 10, "", ""⟩, ⟨2, "r2", none, "", ""⟩,
    ⟨3, "r3", none, "", ""⟩],
   [⟨10, "rc", "compute"⟩], [], [], 11⟩

/-- The resource-class row of `c2db`. -/
def c2rc : ResourceClassRow := ⟨10, "rc", "compute"⟩

/-- **C2** witness: `set_resources(c2db, rc 10, [2, 3])` leaves the class
holding exactly racks 2 and 3 and detaches rack 1. -/
theorem set_resources_replaces_rack_associations_witness :
    ((c2db.racks.map (fun r => r.id)).Nodup ∧
      (c2db.resource_classes.map (fun c => c.id)).Nodup ∧
      c2rc ∈ c2db.resource_classes ∧
      2 ∈ c2db.racks.map (fun r => r.id) ∧
      3 ∈ c2db.racks.map (fun r => r.id)) ∧
    (∃ db2, ResourceClass.set_resources c2db c2rc [2, 3] = some db2 ∧
      ResourceClass.get db2 c2rc.id = some ⟨c2rc, none⟩ ∧
      (ResourceClass.resources_ids db2 c2rc).toFinset =
        {toString 2, toString 3} ∧
      ∀ x ∈ c2db.racks, x.resource_class_id = some c2rc.id →
        x.id ≠ 2 → x.id ≠ 3 →
        ∃ x2 ∈ db2.racks, x2.id = x.id ∧ x2.resource_class_id = none) :=
  ⟨⟨by decide, by decide, by decide, by decide, by decide⟩,
   set_resources_replaces_rack_associations c2db c2rc 2 3 (by decide)
     (by decide) (by decide) (by decide) (by decide)⟩

/-! ## C3: `set_flavors` machinery -/

/-- Auxiliary: the delete loop of `set_flavors` over a list of flavor ids
removes exactly the join rows of the class whose flavor id is in the list. -/
theorem foldl_rcf_delete (rcid : Nat) : ∀ (fids : List Nat) (db : DB),
    fids.foldl (fun d fid => ResourceClassFlavor.delete d rcid fid) db =
      { db with resource_class_flavors :=
          db.resource_class_flavors.filter (fun r =>
            ¬ (r.resource_class_id = rcid ∧ r.flavor_id ∈ fids)) } := by
  intro fids
  induction fids with
  | nil =>
    intro db
    rw [List.foldl_nil]
    have : db.resource_class_flavors.filter
        (fun r => ¬ (r.resource_class_id = rcid ∧
          r.flavor_id ∈ ([] : List Nat))) = db.resource_class_flavors :=
      List.filter_eq_self.mpr (by intro x _; simp)
    rw [this]
  | cons fid rest ih =>
    intro db
    rw [List.foldl_cons, ih]
    unfold ResourceClassFlavor.delete
    congr 1
    rw [List.filter_filter]
    apply List.filter_congr
    intro x _
    by_cases h1 : x.resource_class_id = rcid
    · by_cases h2 : x.flavor_id = fid <;>
        by_cases h3 : x.flavor_id ∈ rest <;>
        simp [h1, h2, h3, List.mem_cons]
    · simp [h1]

/-- Auxiliary: the delete phase of `set_flavors` removes exactly the join
rows of the class (every such row's flavor id is in the collected list). -/
theorem rcf_delete_phase (db : DB) (rc : ResourceClassRow) :
    ((db.resource_class_flavors.filter
        (fun r => r.resource_class_id = rc.id)).map
          (fun r => r.flavor_id)).foldl
      (fun d fid => ResourceClassFlavor.delete d rc.id fid) db =
    { db with resource_class_flavors :=
        db.resource_class_flavors.filter (fun r =>
          ¬ r.resource_class_id = rc.id) } := by
  rw [foldl_rcf_delete]
  congr 1
  apply List.filter_congr
  intro x hx
  by_cases h1 : x.resource_class_id = rc.id
  · have : x.flavor_id ∈ (db.resource_class_flavors.filter
        (fun r => r.resource_class_id = rc.id)).map (fun r => r.flavor_id) :=
      List.mem_map_of_mem _ (List.mem_filter.mpr ⟨hx, by simp [h1]⟩)
    simp [h1, this]
  · simp [h1]

/-- Auxiliary: `Flavor.get` on the id of a stored flavor returns that
flavor, provided flavor ids are pairwise distinct. -/
theorem flavor_get_eq (db : DB)
    (hnd : (db.flavors.map (fun f => f.id)).Nodup)
    (f : FlavorRow) (hf : f ∈ db.flavors) :
    Flavor.get db f.id = some ⟨f⟩ := by
  unfold Flavor.get getUnique
  rw [filter_eq_singleton_of_nodup_key (fun x : FlavorRow => x.id)
    db.flavors hnd f hf]
  rfl

/-- **C3**: `set_flavors(request, rc_id, [f1], max_vms={f1: 5})` leaves
exactly one join row for `(rc_id, f1)`, carrying `max_vms = 5`, and every
join row that previously associated the class with any flavor is gone. -/
theorem set_flavors_replaces_flavor_associations (db : DB)
    (rc : ResourceClassRow) (f1 : Nat)
    (hnd : (db.flavors.map (fun f => f.id)).Nodup)
    (hf : f1 ∈ db.flavors.map (fun f => f.id))
    (hfresh : ∀ r ∈ db.resource_class_flavors, r.id < db.nextId) :
    ∃ db2, ResourceClass.set_flavors db rc [f1] [(f1, 5)] = some db2 ∧
      (∃ r ∈ db2.resource_class_flavors,
        r.resource_class_id = rc.id ∧ r.flavor_id = f1 ∧
          r.max_vms = some 5) ∧
      (∀ r ∈ db2.resource_class_flavors, r.resource_class_id = rc.id →
        r.flavor_id = f1 → r.max_vms = some 5) ∧
      (∀ r ∈ db.resource_class_flavors, r.resource_class_id = rc.id →
        r ∉ db2.resource_class_flavors) := by
  obtain ⟨f, hfmem, hfid⟩ := List.mem_map.mp hf
  subst hfid
  unfold ResourceClass.set_flavors
  rw [rcf_delete_phase db rc, List.foldlM_cons]
  rw [flavor_get_eq
    { db with resource_class_flavors :=
        db.resource_class_flavors.filter (fun r =>
          ¬ r.resource_class_id = rc.id) }
    hnd f hfmem]
  simp only [List.foldlM_nil, Option.some_bind, bind, Option.bind, pure,
    List.lookup_cons, beq_self_eq_true]
  refine ⟨_, rfl, ⟨⟨db.nextId, rc.id, f.id, some 5⟩, ?_, rfl, rfl, rfl⟩,
    ?_, ?_⟩
  · exact List.mem_append_right _ (List.mem_singleton.mpr rfl)
  · intro r hr h1 _
    rcases List.mem_append.mp hr with hfil | hnew
    · have := (List.mem_filter.mp hfil).2
      simp only [decide_eq_true_eq] at this
      exact absurd h1 this
    · rw [List.mem_singleton.mp hnew]
  · intro r hr h1 hcontra
    rcases List.mem_append.mp hcontra with hfil | hnew
    · have := (List.mem_filter.mp hfil).2
      simp only [decide_eq_true_eq] at this
      exact this h1
    · have : r.id = db.nextId := by
        rw [List.mem_singleton.mp hnew]
      exact absurd this (Nat.ne_of_lt (hfresh r hr))

/-- Database for the C3 witness: flavor 1 exists, and the class (id 7) is
currently associated with flavor 1 through join row 2 with `max_vms = 3`. -/
def c3db : DB :=
  ⟨[], [], [], [⟨7, "rc", "compute"⟩], [⟨1, "f1"⟩], [⟨2, 7, 1, some 3⟩], 8⟩

/-- The resource-class row of `c3db`. -/
def c3rc : ResourceClassRow := ⟨7, "rc", "compute"⟩

/-- **C3** witness: on `c3db`, `set_flavors(rc 7, [1], {1: 5})` replaces the
old join row by one carrying `max_vms = 5`. -/
theorem set_flavors_replaces_flavor_associations_witness :
    ((c3db.flavors.map (fun f => f.id)).Nodup ∧
      1 ∈ c3db.flavors.map (fun f => f.id) ∧
      (∀ r ∈ c3db.resource_class_flavors, r.id < c3db.nextId)) ∧
    (∃ db2, ResourceClass.set_flavors c3db c3rc [1] [(1, 5)] = some db2 ∧
      (∃ r ∈ db2.resource_class_flavors,
        r.resource_class_id = c3rc.id ∧ r.flavor_id = 1 ∧
          r.max_vms = some 5) ∧
      (∀ r ∈ db2.resource_class_flavors, r.resource_class_id = c3rc.id →
        r.flavor_id = 1 → r.max_vms = some 5) ∧
      (∀ r ∈ c3db.resource_class_flavors, r.resource_class_id = c3rc.id →
        r ∉ db2.resource_class_flavors)) :=
  ⟨⟨by decide, by decide, by decide⟩,
   set_flavors_replaces_flavor_associations c3db c3rc 1 (by decide)
     (by decide) (by decide)⟩
